import Mathlib

/-!
Shallow embedding of the runner/scheduler subsystem of meilisync-admin
(src/meilisync_admin/scheduler.py and src/meilisync_admin/models.py).

The dispatch loop `Runner.sync_data`, the flush-timer loop
`Runner.start_interval`, the full-sync part of `Runner.__aenter__`, and the
`Scheduler` task registry are embedded as pure state-transition functions.
Progress markers are modelled as natural numbers in connector order; the
external Index Client is modelled by the per-target `applied` list (the
sequence of events written to that index, in write order) together with an
explicit failure set naming the targets whose index writes raise.
-/

namespace MeilisyncAdmin

/-- Event kinds of meilisync (EventType enum): create, update, delete. -/
inductive EventType where
  | create
  | update
  | delete
deriving DecidableEq, Repr

/-- A change event (meilisync Event): its source table, its kind, and the
progress marker valid as of this event, modelled as a Nat in connector order. -/
structure Event where
  table : String
  type : EventType
  progress : Nat
deriving DecidableEq, Repr

/-- An item of the internal queue of `Runner.sync_data`: either a data Event,
or a progress-only item (the `not isinstance(event, Event)` branch), which
also carries a progress marker. -/
inductive QueueItem where
  | ev (e : Event)
  | progressOnly (p : Nat)
deriving DecidableEq, Repr

/-- The progress marker carried by a queue item (`event.progress` is read in
both branches of the dispatch loop). -/
def QueueItem.progress : QueueItem → Nat
  | .ev e => e.progress
  | .progressOnly p => p

/-- Modelled from the spec: the batching parameters of the Meilisearch record
referenced by a Sync (`sync.meilisearch.insert_size`,
`sync.meilisearch.insert_interval`). The Meilisearch model itself is not under
src/ (only models.py with Source, Sync, SyncLog is); per the spec both
parameters are optional and independently configurable, so both are `Option
Nat` with `none` for unset. -/
structure MeiliConf where
  insert_size : Option Nat
  insert_interval : Option Nat
deriving DecidableEq, Repr

/-- Python truthiness of an optional integer field: None and 0 are falsy.
This is the test used by `if not meilisearch.insert_size and not
meilisearch.insert_interval` and by `if insert_interval:`. -/
def truthy : Option Nat → Bool
  | none => false
  | some n => n != 0

/-- Python `x or d` on an optional integer: the value when truthy, else the
default (used by `insert_interval or 10000` in `Runner.__aenter__`). -/
def orDefault : Option Nat → Nat → Nat
  | none, d => d
  | some n, d => if n = 0 then d else n

/-- Errors that can escape the embedded loops: the TypeError Python raises
when `collection.size >= None` is evaluated, and a failing index write. -/
inductive PyError where
  | typeError
  | indexApplyError
deriving DecidableEq, Repr

/-- Python `n >= o` where `o` is an optional integer: comparing an int with
None raises TypeError (this is exactly `collection.size >=
meilisearch.insert_size` on line 150 of scheduler.py). -/
def pyGe (n : Nat) : Option Nat → Except PyError Bool
  | some m => .ok (decide (n ≥ m))
  | none => .error .typeError

/-- Per-target, per-event-kind statistics counters
(`self.stats[sync.pk][event.type]`). -/
structure Stats where
  create : Nat := 0
  update : Nat := 0
  delete : Nat := 0
deriving DecidableEq, Repr

/-- Read one counter. -/
def Stats.get (s : Stats) : EventType → Nat
  | .create => s.create
  | .update => s.update
  | .delete => s.delete

/-- Increment one counter (`self.stats.setdefault(...)...+= 1`). -/
def Stats.inc (s : Stats) : EventType → Stats
  | .create => { s with create := s.create + 1 }
  | .update => { s with update := s.update + 1 }
  | .delete => { s with delete := s.delete + 1 }

/-- One SyncTarget as the Runner sees it: the Sync primary key, its source
table, its batching configuration, its EventBatch (`collections_map` entry),
the sequence of events applied to its index so far (the index state), and its
statistics counters. -/
structure TargetEntry where
  pk : Nat
  table : String
  conf : MeiliConf
  batch : List Event
  applied : List Event
  stats : Stats
deriving DecidableEq, Repr

/-- The mutable state of one Runner that the dispatch and flush-timer loops
touch: the in-memory current progress marker, the history of durably
persisted checkpoint values (every `_save_progress` call appends
`current_progress`; the durable marker at any time is the last entry), call
traces of `handle_events` (batch flushes) and `handle_event` (immediate
applies), the lines written by `logger.error` in `start_interval`, and the
per-target state. -/
structure RState where
  currentProgress : Nat
  persistLog : List Nat
  flushLog : List (Nat × List Event)
  handleEventLog : List (Nat × Event)
  errorLog : List String
  targets : List TargetEntry
deriving DecidableEq, Repr

/-- An immediate index write (`m.handle_event(event, setting)`): appends the
event to the target index, or raises when the index write fails. -/
def applyImmediate (failSet : List Nat) (t : TargetEntry) (e : Event) :
    Except PyError TargetEntry :=
  if t.pk ∈ failSet then .error .indexApplyError
  else .ok { t with applied := t.applied ++ [e] }

/-- A batch index write (`m.handle_events(collection)`): applies the buffered
events to the index in append order and clears the batch, or raises with the
batch retained when the index write fails. -/
def flushBatch (failSet : List Nat) (t : TargetEntry) : Except PyError TargetEntry :=
  if t.pk ∈ failSet then .error .indexApplyError
  else .ok { t with applied := t.applied ++ t.batch, batch := [] }

/-- The body of the `for setting, sync_model in ss_list` loop of
`Runner.sync_data` for one target: skip a target of another table; otherwise
increment the statistics counter, then either apply immediately and persist
the checkpoint (unbatched target), or append to the EventBatch and, when
`collection.size >= insert_size`, flush and persist. Returns the updated
target, the checkpoint values persisted, the flush and immediate-apply trace
entries, and the exception if one escaped. -/
def dispatchOne (failSet : List Nat) (cp : Nat) (e : Event) (t : TargetEntry) :
    TargetEntry × List Nat × List (Nat × List Event) × List (Nat × Event) ×
      Option PyError :=
  if t.table = e.table then
    let t1 := { t with stats := t.stats.inc e.type }
    if ¬ truthy t1.conf.insert_size ∧ ¬ truthy t1.conf.insert_interval then
      match applyImmediate failSet t1 e with
      | .error er => (t1, [], [], [], some er)
      | .ok t2 => (t2, [cp], [], [(t1.pk, e)], none)
    else
      let t2 := { t1 with batch := t1.batch ++ [e] }
      match pyGe t2.batch.length t2.conf.insert_size with
      | .error er => (t2, [], [], [], some er)
      | .ok true =>
        match flushBatch failSet t2 with
        | .error er => (t2, [], [], [], some er)
        | .ok t3 => (t3, [cp], [(t2.pk, t2.batch)], [], none)
      | .ok false => (t2, [], [], [], none)
  else (t, [], [], [], none)

/-- The whole `for setting, sync_model in ss_list` loop of `Runner.sync_data`
over the target list, stopping at the first escaping exception (which leaves
the later targets untouched, as the Python loop dies there). -/
def dispatchList (failSet : List Nat) (cp : Nat) (e : Event) :
    List TargetEntry →
      List TargetEntry × List Nat × List (Nat × List Event) ×
        List (Nat × Event) × Option PyError
  | [] => ([], [], [], [], none)
  | t :: ts =>
    match dispatchOne failSet cp e t with
    | (t1, p, f, h, some er) => (t1 :: ts, p, f, h, some er)
    | (t1, p, f, h, none) =>
      let r := dispatchList failSet cp e ts
      (t1 :: r.1, p ++ r.2.1, f ++ r.2.2.1, h ++ r.2.2.2.1, r.2.2.2.2)

/-- One iteration of the `while True` loop of `Runner.sync_data` on one queue
item: set `current_progress` from the item; a progress-only item persists the
checkpoint and continues; a data Event is fanned out to the targets of its
table (an event whose table has no targets falls through with no effect
beyond `current_progress`). Returns the new state and the exception that
terminated the loop, if any. -/
def syncStep (failSet : List Nat) (st : RState) (q : QueueItem) :
    RState × Option PyError :=
  match q with
  | .progressOnly p =>
    ({ st with currentProgress := p, persistLog := st.persistLog ++ [p] }, none)
  | .ev e =>
    let r := dispatchList failSet e.progress e st.targets
    ({ st with
        currentProgress := e.progress
        targets := r.1
        persistLog := st.persistLog ++ r.2.1
        flushLog := st.flushLog ++ r.2.2.1
        handleEventLog := st.handleEventLog ++ r.2.2.2.1 }, r.2.2.2.2)

/-- Flush the target with the given pk in the target list
(`m.handle_events(c)` against the collection the interval task closed over):
errors propagate, leaving every batch as it was. -/
def flushTarget (failSet : List Nat) :
    List TargetEntry → Nat →
      Except PyError (List TargetEntry × List (Nat × List Event))
  | [], _ => .ok ([], [])
  | t :: ts, pk =>
    if t.pk = pk then
      match flushBatch failSet t with
      | .error er => .error er
      | .ok t1 => .ok (t1 :: ts, [(pk, t.batch)])
    else
      match flushTarget failSet ts pk with
      | .error er => .error er
      | .ok r => .ok (t :: r.1, r.2)

/-- The body of the `try` block of one `Runner.start_interval` tick:
`handle_events` on the closed-over collection, then `_save_progress`. -/
def tickFlush (failSet : List Nat) (st : RState) (pk : Nat) :
    Except PyError RState :=
  match flushTarget failSet st.targets pk with
  | .error er => .error er
  | .ok r =>
    .ok { st with
            targets := r.1
            flushLog := st.flushLog ++ r.2
            persistLog := st.persistLog ++ [st.currentProgress] }

/-- The message `logger.error` writes in `Runner.start_interval`. -/
def intervalErrorLine : String := "Error when insert data to Meilisearch"

/-- One full iteration of `Runner.start_interval` after the sleep: the tick
body wrapped in `try ... except Exception`: any error is caught, a line is
logged, and the state is otherwise left unchanged (the unflushed batch is
retained); the loop then continues. -/
def timerTick (failSet : List Nat) (st : RState) (pk : Nat) : RState :=
  match tickFlush failSet st pk with
  | .ok st1 => st1
  | .error _ => { st with errorLog := st.errorLog ++ [intervalErrorLine] }

/-- An interleaving step of the concurrent loops: the dispatch loop handles
one queue item, or the flush-timer loop of the target with the given pk
ticks. -/
inductive Action where
  | item (q : QueueItem)
  | tick (pk : Nat)
deriving DecidableEq, Repr

/-- Run a schedule of interleaved dispatch and flush-timer steps. An
exception escaping the dispatch loop terminates the run (the dispatch loop
has no handler); a flush-timer error never does (it is caught in
`start_interval`). -/
def runSched (failSet : List Nat) (st : RState) :
    List Action → RState × Option PyError
  | [] => (st, none)
  | .item q :: rest =>
    match syncStep failSet st q with
    | (st1, none) => runSched failSet st1 rest
    | (st1, some er) => (st1, some er)
  | .tick pk :: rest => runSched failSet (timerTick failSet st pk) rest

/-- A fresh runner state over the given targets with the given starting
progress marker and empty logs. -/
def initState (p : Nat) (ts : List TargetEntry) : RState :=
  { currentProgress := p
    persistLog := []
    flushLog := []
    handleEventLog := []
    errorLog := []
    targets := ts }

/-- Whether the markers of the queue items of a schedule are nondecreasing
and bounded below by the given starting marker (connector order). -/
def progressLB (p : Nat) : List Action → Bool
  | [] => true
  | .item q :: rest => decide (p ≤ q.progress) && progressLB q.progress rest
  | .tick _ :: rest => progressLB p rest

/-- The queue items of a schedule, in dispatch order (the interleaved
flush-timer ticks removed). -/
def itemsOf : List Action → List QueueItem
  | [] => []
  | .item q :: rest => q :: itemsOf rest
  | .tick _ :: rest => itemsOf rest

/-- The data events for one table in a queue-item sequence, in order. -/
def eventsOfItems (tbl : String) : List QueueItem → List Event
  | [] => []
  | .ev e :: rest => (if e.table = tbl then [e] else []) ++ eventsOfItems tbl rest
  | .progressOnly _ :: rest => eventsOfItems tbl rest

/-- The data events for one table in a schedule, in dispatch order. -/
def eventsFor (tbl : String) : List Action → List Event
  | [] => []
  | .item (.ev e) :: rest =>
    (if e.table = tbl then [e] else []) ++ eventsFor tbl rest
  | _ :: rest => eventsFor tbl rest

/-- The applied list (index state) of the first target of a state. -/
def headApplied (st : RState) : List Event :=
  match st.targets with
  | [] => []
  | t :: _ => t.applied

/-- The batch of the first target of a state. -/
def headBatch (st : RState) : List Event :=
  match st.targets with
  | [] => []
  | t :: _ => t.batch

/-- The statistics of the first target of a state. -/
def headStats (st : RState) : Stats :=
  match st.targets with
  | [] => {}
  | t :: _ => t.stats

/-- The full-sync part of `Runner.__aenter__` for one target: the chunks
loaded with `add_full_data`. The chunks the Source Connector would yield are
an oracle from the chunk size; the chunk size passed to `get_full_data` is
`insert_interval or 10000`. The body runs only under `if ss.full and not
await meili.index_exists(ss.index_name)`. -/
def fullSyncLoads (full indexExists : Bool) (interval : Option Nat)
    (getFullData : Nat → List (List Nat)) : List (List Nat) :=
  if full && !indexExists then getFullData (orDefault interval 10000)
  else []

/-- The document count `Runner.__aenter__` logs for one full-synced target. -/
def fullSyncCount (full indexExists : Bool) (interval : Option Nat)
    (getFullData : Nat → List (List Nat)) : Nat :=
  ((fullSyncLoads full indexExists interval getFullData).map List.length).sum

/-- Whether `Runner.__aenter__` starts a flush-timer task for a target
(`if insert_interval:`) — it depends only on the interval, not on the
index-exists check. -/
def bootTimerStarted (interval : Option Nat) : Bool := truthy interval

/-- A configured source as `Scheduler.startup` reads it (models.py `Source`:
label, type, connection; there is no enabled flag on a source). -/
structure Source where
  pk : Nat
  label : String
deriving DecidableEq, Repr

/-- A spawned Runner task recorded in `Scheduler._tasks`, remembered by the
source it runs and the reset_progress flag it was started with. -/
structure RunnerTask where
  sourcePk : Nat
  resetProgress : Bool
deriving DecidableEq, Repr

/-- Python dict assignment `d[k] = v` on an insertion-ordered association
list: replace in place when the key is present, else append. -/
def dictInsert (m : List (Nat × RunnerTask)) (k : Nat) (v : RunnerTask) :
    List (Nat × RunnerTask) :=
  if m.any (fun p => p.1 = k) then
    m.map (fun p => if p.1 = k then (k, v) else p)
  else m ++ [(k, v)]

/-- `Scheduler.startup`: for every source returned by `Source.all()`, spawn a
Runner task (reset_progress defaults to false) and record it keyed by
`source.pk`. -/
def startupTasks (sources : List Source) : List (Nat × RunnerTask) :=
  sources.foldl (fun acc s => dictInsert acc s.pk ⟨s.pk, false⟩) []

/-- `Scheduler.remove_source`: when the id is tracked, cancel that task and
drop it; otherwise do nothing. Returns the new task map and the cancelled
tasks. -/
def removeSource (tasks : List (Nat × RunnerTask)) (id : Nat) :
    List (Nat × RunnerTask) × List RunnerTask :=
  if tasks.any (fun p => p.1 = id) then
    (tasks.filter (fun p => p.1 ≠ id),
     (tasks.filter (fun p => p.1 = id)).map Prod.snd)
  else (tasks, [])

/-- `Scheduler.restart_source`: `remove_source(source.pk)` then record a
fresh task under `source.pk` with the requested reset_progress flag. -/
def restartSource (tasks : List (Nat × RunnerTask)) (src : Source)
    (resetProgress : Bool) : List (Nat × RunnerTask) × List RunnerTask :=
  let r := removeSource tasks src.pk
  (dictInsert r.1 src.pk ⟨src.pk, resetProgress⟩, r.2)

/-! ### Theorems -/

/-- Claim C5: during Runner bootstrap, a target with full_sync enabled whose
destination index already exists skips the full-dataset extraction and the
full-data load entirely; the full-data bootstrap runs exactly when the
full_sync flag is set and the index-exists check returns false, and it then
streams the full dataset in chunks of size `insert_interval or 10000`. (The
flush-timer start and incremental ingestion do not depend on the
index-exists check at all: `bootTimerStarted` takes only the interval.) -/
theorem C5_full_sync_gating (interval : Option Nat)
    (gfd : Nat → List (List Nat)) :
    fullSyncLoads true true interval gfd = [] ∧
    fullSyncLoads false true interval gfd = [] ∧
    fullSyncLoads false false interval gfd = [] ∧
    fullSyncLoads true false interval gfd = gfd (orDefault interval 10000) := by
  refine ⟨?_, ?_, ?_, ?_⟩ <;> simp [fullSyncLoads]

/-- Claim C2 (code bug evaluation): an enabled target with `insert_interval`
set but `insert_size` unset reaches the batched branch of `Runner.sync_data`,
appends the event to its EventBatch and increments its statistics counter,
and then `collection.size >= meilisearch.insert_size` compares an int with
None and raises TypeError, which escapes the dispatch loop — the dispatch
does not succeed without error as the claim (and the spec intent of
independently configurable batching parameters) requires. -/
theorem C2_interval_only_dispatch_raises :
    (syncStep [] (initState 0 [⟨1, "users", ⟨none, some 60⟩, [], [], {}⟩])
        (.ev ⟨"users", .create, 7⟩)).2 = some .typeError ∧
    (syncStep [] (initState 0 [⟨1, "users", ⟨none, some 60⟩, [], [], {}⟩])
        (.ev ⟨"users", .create, 7⟩)).1.targets =
      [⟨1, "users", ⟨none, some 60⟩, [⟨"users", .create, 7⟩], [],
        { create := 1 }⟩] ∧
    (syncStep [] (initState 0 [⟨1, "users", ⟨none, some 60⟩, [], [], {}⟩])
        (.ev ⟨"users", .create, 7⟩)).1.flushLog = [] := by
  decide

/-- Claim C4: with Target A (pk 1, insert_size 3, no interval) and Target B
(pk 2, unbatched) on table users, three create events produce: no flush and
an immediate apply with a checkpoint persist for B after each of the first
two events; after the third event exactly one flush for A carrying all three
events in arrival order, B having applied each of the three immediately with
a checkpoint after each apply; no error. -/
theorem C4_two_target_scenario :
    (runSched [] (initState 0
        [⟨1, "users", ⟨some 3, none⟩, [], [], {}⟩,
         ⟨2, "users", ⟨none, none⟩, [], [], {}⟩])
      [Action.item (.ev ⟨"users", .create, 1⟩)]).2 = none ∧
    (runSched [] (initState 0
        [⟨1, "users", ⟨some 3, none⟩, [], [], {}⟩,
         ⟨2, "users", ⟨none, none⟩, [], [], {}⟩])
      [Action.item (.ev ⟨"users", .create, 1⟩)]).1.flushLog = [] ∧
    (runSched [] (initState 0
        [⟨1, "users", ⟨some 3, none⟩, [], [], {}⟩,
         ⟨2, "users", ⟨none, none⟩, [], [], {}⟩])
      [Action.item (.ev ⟨"users", .create, 1⟩)]).1.persistLog = [1] ∧
    (runSched [] (initState 0
        [⟨1, "users", ⟨some 3, none⟩, [], [], {}⟩,
         ⟨2, "users", ⟨none, none⟩, [], [], {}⟩])
      [Action.item (.ev ⟨"users", .create, 1⟩),
       Action.item (.ev ⟨"users", .create, 2⟩)]).2 = none ∧
    (runSched [] (initState 0
        [⟨1, "users", ⟨some 3, none⟩, [], [], {}⟩,
         ⟨2, "users", ⟨none, none⟩, [], [], {}⟩])
      [Action.item (.ev ⟨"users", .create, 1⟩),
       Action.item (.ev ⟨"users", .create, 2⟩)]).1.flushLog = [] ∧
    (runSched [] (initState 0
        [⟨1, "users", ⟨some 3, none⟩, [], [], {}⟩,
         ⟨2, "users", ⟨none, none⟩, [], [], {}⟩])
      [Action.item (.ev ⟨"users", .create, 1⟩),
       Action.item (.ev ⟨"users", .create, 2⟩)]).1.persistLog = [1, 2] ∧
    (runSched [] (initState 0
        [⟨1, "users", ⟨some 3, none⟩, [], [], {}⟩,
         ⟨2, "users", ⟨none, none⟩, [], [], {}⟩])
      [Action.item (.ev ⟨"users", .create, 1⟩),
       Action.item (.ev ⟨"users", .create, 2⟩),
       Action.item (.ev ⟨"users", .create, 3⟩)]).2 = none ∧
    (runSched [] (initState 0
        [⟨1, "users", ⟨some 3, none⟩, [], [], {}⟩,
         ⟨2, "users", ⟨none, none⟩, [], [], {}⟩])
      [Action.item (.ev ⟨"users", .create, 1⟩),
       Action.item (.ev ⟨"users", .create, 2⟩),
       Action.item (.ev ⟨"users", .create, 3⟩)]).1.flushLog =
      [(1, [⟨"users", .create, 1⟩, ⟨"users", .create, 2⟩,
            ⟨"users", .create, 3⟩])] ∧
    (runSched [] (initState 0
        [⟨1, "users", ⟨some 3, none⟩, [], [], {}⟩,
         ⟨2, "users", ⟨none, none⟩, [], [], {}⟩])
      [Action.item (.ev ⟨"users", .create, 1⟩),
       Action.item (.ev ⟨"users", .create, 2⟩),
       Action.item (.ev ⟨"users", .create, 3⟩)]).1.handleEventLog =
      [(2, ⟨"users", .create, 1⟩), (2, ⟨"users", .create, 2⟩),
       (2, ⟨"users", .create, 3⟩)] ∧
    (runSched [] (initState 0
        [⟨1, "users", ⟨some 3, none⟩, [], [], {}⟩,
         ⟨2, "users", ⟨none, none⟩, [], [], {}⟩])
      [Action.item (.ev ⟨"users", .create, 1⟩),
       Action.item (.ev ⟨"users", .create, 2⟩),
       Action.item (.ev ⟨"users", .create, 3⟩)]).1.persistLog =
      [1, 2, 3, 3] := by
  decide

/-- Claim C6: any error raised inside the try block of one flush-timer tick
(the batch apply or the checkpoint persist) is caught: the tick returns
normally with only an error line logged, every target (its unflushed batch
included) is left exactly as it was, and the surrounding loop goes on to the
remaining schedule instead of terminating the Runner. -/
theorem C6_flush_error_caught (failSet : List Nat) (st : RState) (pk : Nat)
    (er : PyError) (rest : List Action)
    (h : tickFlush failSet st pk = .error er) :
    timerTick failSet st pk =
      { st with errorLog := st.errorLog ++ [intervalErrorLine] } ∧
    (timerTick failSet st pk).targets = st.targets ∧
    runSched failSet st (.tick pk :: rest) =
      runSched failSet
        { st with errorLog := st.errorLog ++ [intervalErrorLine] } rest := by
  have h1 : timerTick failSet st pk =
      { st with errorLog := st.errorLog ++ [intervalErrorLine] } := by
    unfold timerTick
    rw [h]
  exact ⟨h1, by rw [h1], by rw [runSched, h1]⟩

/-- Witness for C6 at a concrete failing tick: pk 5 is in the failure set,
so the flush raises; the tick only logs and retains the batch. -/
theorem C6_flush_error_caught_witness :
    tickFlush [5]
        (initState 7 [⟨5, "users", ⟨none, some 60⟩,
          [⟨"users", .create, 1⟩], [], {}⟩]) 5 = .error .indexApplyError ∧
    (timerTick [5]
        (initState 7 [⟨5, "users", ⟨none, some 60⟩,
          [⟨"users", .create, 1⟩], [], {}⟩]) 5 =
      { (initState 7 [⟨5, "users", ⟨none, some 60⟩,
          [⟨"users", .create, 1⟩], [], {}⟩]) with
          errorLog := [] ++ [intervalErrorLine] } ∧
    (timerTick [5]
        (initState 7 [⟨5, "users", ⟨none, some 60⟩,
          [⟨"users", .create, 1⟩], [], {}⟩]) 5).targets =
      (initState 7 [⟨5, "users", ⟨none, some 60⟩,
          [⟨"users", .create, 1⟩], [], {}⟩]).targets ∧
    runSched [5]
        (initState 7 [⟨5, "users", ⟨none, some 60⟩,
          [⟨"users", .create, 1⟩], [], {}⟩]) [.tick 5] =
      runSched [5]
        { (initState 7 [⟨5, "users", ⟨none, some 60⟩,
            [⟨"users", .create, 1⟩], [], {}⟩]) with
            errorLog := [] ++ [intervalErrorLine] } []) :=
  ⟨rfl,
   C6_flush_error_caught [5]
     (initState 7 [⟨5, "users", ⟨none, some 60⟩,
       [⟨"users", .create, 1⟩], [], {}⟩]) 5 .indexApplyError []
     rfl⟩

/-- Auxiliary fold lemma for `startupTasks`: over sources whose pks are
pairwise distinct and absent from the accumulator, the fold appends one entry
per source. -/
theorem startupTasks_aux (sources : List Source) :
    ∀ acc : List (Nat × RunnerTask),
      (∀ s ∈ sources, ∀ p ∈ acc, p.1 ≠ s.pk) →
      sources.Pairwise (fun a b => a.pk ≠ b.pk) →
      sources.foldl (fun acc s => dictInsert acc s.pk ⟨s.pk, false⟩) acc =
        acc ++ sources.map (fun s => (s.pk, ⟨s.pk, false⟩)) := by
  induction sources with
  | nil => intro acc _ _; simp
  | cons s ss ih =>
    intro acc hacc hpw
    have hany : acc.any (fun p => p.1 = s.pk) = false := by
      simp only [List.any_eq_false, decide_eq_true_eq]
      intro p hp
      exact hacc s (by simp) p hp
    have hins : dictInsert acc s.pk ⟨s.pk, false⟩ = acc ++ [(s.pk, ⟨s.pk, false⟩)] := by
      unfold dictInsert
      rw [hany]
      simp
    have hacc2 : ∀ t ∈ ss, ∀ p ∈ acc ++ [(s.pk, ⟨s.pk, false⟩)], p.1 ≠ t.pk := by
      intro t ht p hp
      rcases List.mem_append.mp hp with hp | hp
      · exact hacc t (by simp [ht]) p hp
      · simp only [List.mem_singleton] at hp
        subst hp
        exact (List.pairwise_cons.mp hpw).1 t ht
    calc (s :: ss).foldl (fun acc s => dictInsert acc s.pk ⟨s.pk, false⟩) acc
        = ss.foldl (fun acc s => dictInsert acc s.pk ⟨s.pk, false⟩)
            (acc ++ [(s.pk, ⟨s.pk, false⟩)]) := by rw [List.foldl_cons, hins]
      _ = acc ++ [(s.pk, ⟨s.pk, false⟩)] ++ ss.map (fun t => (t.pk, (⟨t.pk, false⟩ : RunnerTask))) :=
            ih _ hacc2 (List.pairwise_cons.mp hpw).2
      _ = acc ++ (s :: ss).map (fun t => (t.pk, (⟨t.pk, false⟩ : RunnerTask))) := by simp

/-- Claim C7: `Scheduler.startup` records exactly one Runner task per
configured source, keyed by that source pk. The Source model (models.py) has
no enabled flag — a source cannot be "not enabled" — so the configured
sources returned by `Source.all()` are exactly the enabled sources, and no
task is recorded for anything outside that list: the resulting task map is
literally the list of sources mapped to their tasks. -/
theorem C7_startup_one_task_per_source (sources : List Source)
    (h : sources.Pairwise (fun a b => a.pk ≠ b.pk)) :
    startupTasks sources = sources.map (fun s => (s.pk, ⟨s.pk, false⟩)) := by
  have := startupTasks_aux sources [] (by intro s _ p hp; cases hp) h
  simpa [startupTasks] using this

/-- Witness for C7 at two concrete sources with distinct pks. -/
theorem C7_startup_one_task_per_source_witness :
    ([⟨1, "db1"⟩, ⟨2, "db2"⟩] : List Source).Pairwise
        (fun a b => a.pk ≠ b.pk) ∧
    startupTasks [⟨1, "db1"⟩, ⟨2, "db2"⟩] =
      [(1, ⟨1, false⟩), (2, ⟨2, false⟩)] :=
  ⟨by decide, C7_startup_one_task_per_source [⟨1, "db1"⟩, ⟨2, "db2"⟩] (by decide)⟩

/-- Claim C10: `Scheduler.restart_source` on a source with no tracked task
does not fail: the remove step cancels nothing and changes nothing, a fresh
task is recorded under the source pk, and afterwards exactly one entry of the
task map carries that key. -/
theorem C10_restart_untracked (tasks : List (Nat × RunnerTask)) (src : Source)
    (rp : Bool) (h : ∀ p ∈ tasks, p.1 ≠ src.pk) :
    restartSource tasks src rp = (tasks ++ [(src.pk, ⟨src.pk, rp⟩)], []) ∧
    (restartSource tasks src rp).1.filter (fun p => p.1 = src.pk) =
      [(src.pk, ⟨src.pk, rp⟩)] := by
  have hany : tasks.any (fun p => p.1 = src.pk) = false := by
    simp only [List.any_eq_false, decide_eq_true_eq]
    exact h
  have hres : restartSource tasks src rp = (tasks ++ [(src.pk, ⟨src.pk, rp⟩)], []) := by
    unfold restartSource removeSource dictInsert
    rw [hany]
    simp [hany]
  refine ⟨hres, ?_⟩
  rw [hres]
  rw [List.filter_append]
  have hnil : tasks.filter (fun p => p.1 = src.pk) = [] := by
    rw [List.filter_eq_nil_iff]
    intro p hp
    simp only [decide_eq_true_eq]
    exact h p hp
  rw [hnil]
  simp

/-- Witness for C10: restarting source pk 3 while only pk 1 is tracked. -/
theorem C10_restart_untracked_witness :
    restartSource [(1, ⟨1, false⟩)] ⟨3, "db3"⟩ true =
        ([(1, ⟨1, false⟩), (3, ⟨3, true⟩)], []) ∧
    (restartSource [(1, ⟨1, false⟩)] ⟨3, "db3"⟩ true).1.filter
        (fun p => p.1 = 3) = [(3, ⟨3, true⟩)] :=
  C10_restart_untracked [(1, ⟨1, false⟩)] ⟨3, "db3"⟩ true (by decide)

/-- An event of an unconfigured table passes every target untouched: the
fan-out loop body skips each of them and produces no persist, flush, apply or
error. -/
theorem dispatchList_no_match (failSet : List Nat) (cp : Nat) (e : Event) :
    ∀ ts : List TargetEntry, (∀ t ∈ ts, t.table ≠ e.table) →
      dispatchList failSet cp e ts = (ts, [], [], [], none) := by
  intro ts
  induction ts with
  | nil => intro _; rfl
  | cons t ts ih =>
    intro h
    have hone : dispatchOne failSet cp e t = (t, [], [], [], none) := by
      unfold dispatchOne
      rw [if_neg (h t (by simp))]
    rw [dispatchList, hone, ih (fun u hu => h u (by simp [hu]))]
    rfl

/-- Claim C8: dispatching a data Event whose table has no configured
SyncTarget updates only the in-memory current Progress Marker of the Runner:
the durable persist history, every EventBatch, every statistics counter,
every index (applied list), the flush and apply traces, and the error log
are all left exactly as they were, and the loop continues without error. -/
theorem C8_unmatched_table_frame (failSet : List Nat) (st : RState) (e : Event)
    (h : ∀ t ∈ st.targets, t.table ≠ e.table) :
    syncStep failSet st (.ev e) =
      ({ st with currentProgress := e.progress }, none) := by
  simp [syncStep, dispatchList_no_match failSet e.progress e st.targets h]

/-- Witness for C8: an event of the unconfigured table orders leaves a state
with one users target unchanged apart from the marker. -/
theorem C8_unmatched_table_frame_witness :
    syncStep [] (initState 4 [⟨1, "users", ⟨some 3, none⟩,
        [⟨"users", .create, 2⟩], [], {}⟩]) (.ev ⟨"orders", .update, 9⟩) =
      ({ (initState 4 [⟨1, "users", ⟨some 3, none⟩,
          [⟨"users", .create, 2⟩], [], {}⟩]) with currentProgress := 9 },
       none) :=
  C8_unmatched_table_frame [] (initState 4 [⟨1, "users", ⟨some 3, none⟩,
    [⟨"users", .create, 2⟩], [], {}⟩]) ⟨"orders", .update, 9⟩ (by decide)

/-- In the fan-out loop body for a matching target, the statistics counter is
incremented first, so the returned target carries the incremented counter in
every branch, raising ones included. -/
theorem dispatchOne_stats (failSet : List Nat) (cp : Nat) (e : Event)
    (t : TargetEntry) (h : t.table = e.table) :
    (dispatchOne failSet cp e t).1.stats = t.stats.inc e.type := by
  unfold dispatchOne applyImmediate flushBatch
  rw [if_pos h]
  dsimp only
  by_cases hpk : t.pk ∈ failSet <;>
    simp only [hpk, ite_true, ite_false] <;>
    repeat' split <;> simp_all

/-- On a single-target state the fan-out loop returns that one target as
updated by the loop body. -/
theorem dispatchList_single_fst (failSet : List Nat) (cp : Nat) (e : Event)
    (t : TargetEntry) :
    (dispatchList failSet cp e [t]).1 = [(dispatchOne failSet cp e t).1] := by
  unfold dispatchList
  rcases hd : dispatchOne failSet cp e t with ⟨t1, p, f, hh, er⟩
  cases er <;> simp [dispatchList]

/-- Claim C9: for an event dispatched to a matching target, the statistics
counter for the event kind is incremented before the index apply is
attempted, so even when the immediate apply raises (terminating the dispatch
loop), the counter has already recorded the event: statistics count
dispatched events, not successfully applied ones. Second conjunct: for an
unbatched target whose index write fails, the apply does raise. -/
theorem C9_stats_recorded_before_apply (failSet : List Nat) (st : RState)
    (t : TargetEntry) (e : Event) (hT : st.targets = [t])
    (hM : t.table = e.table) :
    headStats (syncStep failSet st (.ev e)).1 = t.stats.inc e.type ∧
    (truthy t.conf.insert_size = false → truthy t.conf.insert_interval = false →
      t.pk ∈ failSet →
      (syncStep failSet st (.ev e)).2 = some .indexApplyError) := by
  constructor
  · unfold syncStep
    simp only [hT]
    rw [headStats]
    simp only [dispatchList_single_fst]
    exact dispatchOne_stats failSet e.progress e t hM
  · intro h1 h2 h3
    unfold syncStep
    simp only [hT]
    have hone : (dispatchOne failSet e.progress e t).2.2.2.2 =
        some .indexApplyError := by
      unfold dispatchOne applyImmediate
      rw [if_pos hM]
      simp [h1, h2, h3]
    unfold dispatchList
    rcases hd : dispatchOne failSet e.progress e t with ⟨t1, p, f, hh, er⟩
    rw [hd] at hone
    simp only at hone
    subst hone
    simp

/-- Witness for C9: an unbatched target whose index write fails still counts
the dispatched create event. -/
theorem C9_stats_recorded_before_apply_witness :
    (initState 0 [⟨2, "users", ⟨none, none⟩, [], [], {}⟩]).targets =
      [⟨2, "users", ⟨none, none⟩, [], [], {}⟩] ∧
    (⟨2, "users", ⟨none, none⟩, [], [], ({} : Stats)⟩ : TargetEntry).table =
      (⟨"users", .create, 1⟩ : Event).table ∧
    headStats (syncStep [2] (initState 0
        [⟨2, "users", ⟨none, none⟩, [], [], {}⟩]) (.ev ⟨"users", .create, 1⟩)).1 =
      Stats.inc {} .create ∧
    (syncStep [2] (initState 0 [⟨2, "users", ⟨none, none⟩, [], [], {}⟩])
      (.ev ⟨"users", .create, 1⟩)).2 = some .indexApplyError :=
  ⟨rfl, rfl,
   (C9_stats_recorded_before_apply [2]
     (initState 0 [⟨2, "users", ⟨none, none⟩, [], [], {}⟩])
     ⟨2, "users", ⟨none, none⟩, [], [], {}⟩ ⟨"users", .create, 1⟩ rfl rfl).1,
   (C9_stats_recorded_before_apply [2]
     (initState 0 [⟨2, "users", ⟨none, none⟩, [], [], {}⟩])
     ⟨2, "users", ⟨none, none⟩, [], [], {}⟩ ⟨"users", .create, 1⟩ rfl rfl).2
     rfl rfl (by decide)⟩

/-- Every checkpoint value the fan-out loop body persists is the current
marker of the event being dispatched. -/
theorem dispatchOne_persist_mem (failSet : List Nat) (cp : Nat) (e : Event)
    (t : TargetEntry) : ∀ x ∈ (dispatchOne failSet cp e t).2.1, x = cp := by
  intro x hx
  unfold dispatchOne applyImmediate flushBatch at hx
  repeat' split at hx <;> first
  | simp_all
  | (split at hx <;> simp_all)

/-- Every checkpoint value the whole fan-out loop persists is the current
marker of the event being dispatched. -/
theorem dispatchList_persist_mem (failSet : List Nat) (cp : Nat) (e : Event) :
    ∀ ts : List TargetEntry, ∀ x ∈ (dispatchList failSet cp e ts).2.1, x = cp := by
  intro ts
  induction ts with
  | nil => simp [dispatchList]
  | cons t ts ih =>
    intro x hx
    rw [dispatchList] at hx
    rcases hd : dispatchOne failSet cp e t with ⟨t1, p, f, hh, er⟩
    rw [hd] at hx
    have hp : ∀ y ∈ p, y = cp := by
      have := dispatchOne_persist_mem failSet cp e t
      rw [hd] at this
      exact this
    cases er with
    | some er => exact hp x hx
    | none =>
      rcases List.mem_append.mp hx with hx | hx
      · exact hp x hx
      · exact ih x hx

/-- One dispatch-loop iteration sets the current marker to the progress of
the queue item and only appends persists of exactly that value. -/
theorem syncStep_persist (failSet : List Nat) (st : RState) (q : QueueItem) :
    (syncStep failSet st q).1.currentProgress = q.progress ∧
    ∃ L, (syncStep failSet st q).1.persistLog = st.persistLog ++ L ∧
      ∀ x ∈ L, x = q.progress := by
  cases q with
  | progressOnly p => exact ⟨rfl, [p], rfl, by simp [QueueItem.progress]⟩
  | ev e =>
    exact ⟨rfl, (dispatchList failSet e.progress e st.targets).2.1, rfl,
      dispatchList_persist_mem failSet e.progress e st.targets⟩

/-- A flush-timer tick never moves the current marker and only appends
persists of exactly the current marker (one on success, none on a caught
error). -/
theorem timerTick_persist (failSet : List Nat) (st : RState) (pk : Nat) :
    (timerTick failSet st pk).currentProgress = st.currentProgress ∧
    ∃ L, (timerTick failSet st pk).persistLog = st.persistLog ++ L ∧
      ∀ x ∈ L, x = st.currentProgress := by
  unfold timerTick tickFlush
  rcases hf : flushTarget failSet st.targets pk with er | r
  · exact ⟨rfl, [], by simp, by simp⟩
  · exact ⟨rfl, [st.currentProgress], rfl, by simp⟩

/-- Appending entries all equal to an upper bound of a sorted list keeps it
sorted. -/
theorem pairwise_le_append_const (l L : List Nat) (c : Nat)
    (h1 : l.Pairwise (· ≤ ·)) (h2 : ∀ x ∈ l, x ≤ c)
    (hL : ∀ x ∈ L, x = c) : (l ++ L).Pairwise (· ≤ ·) := by
  rw [List.pairwise_append]
  refine ⟨h1, ?_, ?_⟩
  · exact List.pairwise_of_forall_mem_list fun a ha b hb => by
      rw [hL a ha, hL b hb]
  · intro a ha b hb
    rw [hL b hb]
    exact h2 a ha

/-- Invariant run: when persists so far are sorted and bounded by the
current marker, and the schedule feeds markers in nondecreasing connector
order, the persist history stays sorted and bounded by the current marker
however dispatch iterations and flush-timer ticks interleave, and wherever
the run stops. -/
theorem runSched_persist_mono (failSet : List Nat) :
    ∀ (acts : List Action) (st : RState),
      st.persistLog.Pairwise (· ≤ ·) →
      (∀ x ∈ st.persistLog, x ≤ st.currentProgress) →
      progressLB st.currentProgress acts = true →
      (runSched failSet st acts).1.persistLog.Pairwise (· ≤ ·) ∧
      (∀ x ∈ (runSched failSet st acts).1.persistLog,
        x ≤ (runSched failSet st acts).1.currentProgress) := by
  intro acts
  induction acts with
  | nil => intro st h1 h2 _; exact ⟨h1, h2⟩
  | cons a rest ih =>
    intro st h1 h2 h3
    cases a with
    | item q =>
      rw [progressLB, Bool.and_eq_true, decide_eq_true_eq] at h3
      obtain ⟨hle, hrest⟩ := h3
      obtain ⟨hcp, L, hlog, hLmem⟩ := syncStep_persist failSet st q
      rcases hs : syncStep failSet st q with ⟨st1, er⟩
      rw [hs] at hcp hlog
      have h1' : st1.persistLog.Pairwise (· ≤ ·) := by
        rw [hlog]
        exact pairwise_le_append_const _ _ q.progress h1
          (fun x hx => le_trans (h2 x hx) hle) hLmem
      have h2' : ∀ x ∈ st1.persistLog, x ≤ st1.currentProgress := by
        rw [hlog, hcp]
        intro x hx
        rcases List.mem_append.mp hx with hx | hx
        · exact le_trans (h2 x hx) hle
        · exact le_of_eq (hLmem x hx)
      cases er with
      | none =>
        rw [runSched, hs]
        exact ih st1 h1' h2' (by rw [hcp]; exact hrest)
      | some er =>
        rw [runSched, hs]
        exact ⟨h1', h2'⟩
    | tick pk =>
      rw [progressLB] at h3
      obtain ⟨hcp, L, hlog, hLmem⟩ := timerTick_persist failSet st pk
      rw [runSched]
      refine ih (timerTick failSet st pk) ?_ ?_ (by rw [hcp]; exact h3)
      · rw [hlog]
        exact pairwise_le_append_const _ _ st.currentProgress h1 h2 hLmem
      · rw [hlog, hcp]
        intro x hx
        rcases List.mem_append.mp hx with hx | hx
        · exact h2 x hx
        · exact le_of_eq (hLmem x hx)

/-- Claim C1 as amended: durably persisted checkpoint values only ever move
forward monotonically in connector order — every persist writes the progress
marker of the most recently dequeued item, items arrive in connector order,
and the persist history therefore stays sorted under any interleaving of
dispatch iterations and flush-timer ticks, any index-write failures
included. (The other half of the original claim is refuted by
`C1_checkpoint_ahead_of_unflushed_batch`: the per-source marker can be
persisted ahead of an event still buffered in the unflushed EventBatch of a
batched target.) -/
theorem C1_persisted_checkpoints_monotone (failSet : List Nat) (st : RState)
    (acts : List Action)
    (h1 : st.persistLog.Pairwise (· ≤ ·))
    (h2 : ∀ x ∈ st.persistLog, x ≤ st.currentProgress)
    (h3 : progressLB st.currentProgress acts = true) :
    (runSched failSet st acts).1.persistLog.Pairwise (· ≤ ·) :=
  (runSched_persist_mono failSet acts st h1 h2 h3).1

/-- Witness for C1 at a concrete schedule mixing data events, a
progress-only item and a flush-timer tick. -/
theorem C1_persisted_checkpoints_monotone_witness :
    (initState 0 [⟨1, "users", ⟨some 2, some 60⟩, [], [], {}⟩,
      ⟨2, "users", ⟨none, none⟩, [], [], {}⟩]).persistLog.Pairwise (· ≤ ·) ∧
    progressLB 0 [.item (.ev ⟨"users", .create, 1⟩), .tick 1,
      .item (.progressOnly 2), .item (.ev ⟨"users", .create, 3⟩),
      .item (.ev ⟨"users", .create, 4⟩)] = true ∧
    (runSched [] (initState 0 [⟨1, "users", ⟨some 2, some 60⟩, [], [], {}⟩,
        ⟨2, "users", ⟨none, none⟩, [], [], {}⟩])
      [.item (.ev ⟨"users", .create, 1⟩), .tick 1,
       .item (.progressOnly 2), .item (.ev ⟨"users", .create, 3⟩),
       .item (.ev ⟨"users", .create, 4⟩)]).1.persistLog.Pairwise (· ≤ ·) :=
  ⟨by decide, by decide,
   C1_persisted_checkpoints_monotone []
     (initState 0 [⟨1, "users", ⟨some 2, some 60⟩, [], [], {}⟩,
       ⟨2, "users", ⟨none, none⟩, [], [], {}⟩])
     [.item (.ev ⟨"users", .create, 1⟩), .tick 1,
      .item (.progressOnly 2), .item (.ev ⟨"users", .create, 3⟩),
      .item (.ev ⟨"users", .create, 4⟩)]
     (by decide) (by decide) (by decide)⟩

/-- Counterexample to claim C1 as stated: table users has a batched Target A
(insert_size 3) and an unbatched Target B. Dispatching one create event with
marker 1 appends it to the EventBatch of A without flushing, then applies it
to B and persists checkpoint 1 — so the durably persisted marker (1) is the
marker of an event that is still buffered in the unflushed EventBatch of A
and has not been applied to A: the checkpoint is persisted ahead of an
unflushed batch, which the claim says never happens. -/
theorem C1_checkpoint_ahead_of_unflushed_batch :
    (syncStep [] (initState 0 [⟨1, "users", ⟨some 3, none⟩, [], [], {}⟩,
        ⟨2, "users", ⟨none, none⟩, [], [], {}⟩])
      (.ev ⟨"users", .create, 1⟩)).2 = none ∧
    (syncStep [] (initState 0 [⟨1, "users", ⟨some 3, none⟩, [], [], {}⟩,
        ⟨2, "users", ⟨none, none⟩, [], [], {}⟩])
      (.ev ⟨"users", .create, 1⟩)).1.persistLog = [1] ∧
    (syncStep [] (initState 0 [⟨1, "users", ⟨some 3, none⟩, [], [], {}⟩,
        ⟨2, "users", ⟨none, none⟩, [], [], {}⟩])
      (.ev ⟨"users", .create, 1⟩)).1.targets.map TargetEntry.batch =
      [[⟨"users", .create, 1⟩], []] ∧
    (syncStep [] (initState 0 [⟨1, "users", ⟨some 3, none⟩, [], [], {}⟩,
        ⟨2, "users", ⟨none, none⟩, [], [], {}⟩])
      (.ev ⟨"users", .create, 1⟩)).1.targets.map TargetEntry.applied =
      [[], [⟨"users", .create, 1⟩]] ∧
    (⟨"users", .create, 1⟩ : Event).progress ≤ 1 := by
  decide

/-- Content lemma for one fan-out loop body: for a target whose index writes
succeed and whose configuration cannot raise the size comparison (its
insert_size is set, or it is not interval-only), the body returns no error,
preserves the target identity and configuration, keeps the EventBatch of an
unbatched target empty, and extends applied-events-plus-batch by the event
exactly when the table matches. -/
theorem dispatchOne_content (failSet : List Nat) (cp : Nat) (e : Event)
    (t : TargetEntry) (hpk : t.pk ∉ failSet)
    (hconf : t.conf.insert_size.isSome = true ∨ truthy t.conf.insert_interval = false)
    (hub : truthy t.conf.insert_size = false → truthy t.conf.insert_interval = false →
      t.batch = []) :
    (dispatchOne failSet cp e t).2.2.2.2 = none ∧
    (dispatchOne failSet cp e t).1.table = t.table ∧
    (dispatchOne failSet cp e t).1.conf = t.conf ∧
    (dispatchOne failSet cp e t).1.pk = t.pk ∧
    (truthy t.conf.insert_size = false → truthy t.conf.insert_interval = false →
      (dispatchOne failSet cp e t).1.batch = []) ∧
    (dispatchOne failSet cp e t).1.applied ++ (dispatchOne failSet cp e t).1.batch =
      t.applied ++ t.batch ++ (if t.table = e.table then [e] else []) := by
  unfold dispatchOne
  by_cases hm : t.table = e.table
  · rw [if_pos hm]
    dsimp only
    by_cases hcond : truthy t.conf.insert_size = false ∧
        truthy t.conf.insert_interval = false
    · have hcond2 : ¬truthy t.conf.insert_size = true ∧
          ¬truthy t.conf.insert_interval = true := by
        simp only [Bool.not_eq_true]
        exact hcond
      rw [if_pos hcond2]
      have hb : t.batch = [] := hub hcond.1 hcond.2
      unfold applyImmediate
      rw [if_neg hpk]
      refine ⟨rfl, rfl, rfl, rfl, fun _ _ => hb, ?_⟩
      rw [if_pos hm]
      simp [hb]
    · have hcond2 : ¬(¬truthy t.conf.insert_size = true ∧
          ¬truthy t.conf.insert_interval = true) := by
        simp only [Bool.not_eq_true]
        exact hcond
      rw [if_neg hcond2]
      rcases hsz : t.conf.insert_size with _ | m
      · exfalso
        rcases hconf with hconf | hconf
        · rw [hsz] at hconf
          simp at hconf
        · exact hcond ⟨by rw [hsz]; rfl, hconf⟩
      · simp only [pyGe]
        cases hge : decide ((t.batch ++ [e]).length ≥ m) with
        | false =>
          refine ⟨rfl, rfl, rfl, rfl,
            fun h1 h2 => absurd ⟨by rw [hsz]; exact h1, h2⟩ hcond, ?_⟩
          rw [if_pos hm]
          simp
        | true =>
          unfold flushBatch
          rw [if_neg hpk]
          refine ⟨rfl, rfl, rfl, rfl, fun _ _ => rfl, ?_⟩
          rw [if_pos hm]
          simp
  · simp only [if_neg hm]
    refine ⟨?_, ?_, ?_, ?_, hub, ?_⟩ <;> simp

/-- On a single-target state the fan-out loop reports the error of the loop
body for that target. -/
theorem dispatchList_single_err (failSet : List Nat) (cp : Nat) (e : Event)
    (t : TargetEntry) :
    (dispatchList failSet cp e [t]).2.2.2.2 =
      (dispatchOne failSet cp e t).2.2.2.2 := by
  unfold dispatchList
  rcases hd : dispatchOne failSet cp e t with ⟨t1, p, f, hh, er⟩
  cases er <;> simp [dispatchList]

/-- A flush-timer tick on a single-target state whose index writes succeed:
it never raises, preserves the target identity, configuration and
applied-events-plus-batch content, and either empties the batch (its own
target) or leaves it alone (a tick of a different pk). -/
theorem timerTick_single (failSet : List Nat) (st : RState) (pk : Nat)
    (t : TargetEntry) (hT : st.targets = [t]) (hpk : t.pk ∉ failSet) :
    ∃ t1, (timerTick failSet st pk).targets = [t1] ∧
      t1.table = t.table ∧ t1.conf = t.conf ∧ t1.pk = t.pk ∧
      t1.applied ++ t1.batch = t.applied ++ t.batch ∧
      (t1.batch = [] ∨ t1.batch = t.batch) ∧
      (t.pk = pk → t1.batch = []) := by
  unfold timerTick tickFlush
  rw [hT]
  by_cases hq : t.pk = pk
  · rw [flushTarget, if_pos hq]
    unfold flushBatch
    rw [if_neg hpk]
    exact ⟨_, rfl, rfl, rfl, rfl, by simp, Or.inl rfl, fun _ => rfl⟩
  · rw [flushTarget, if_neg hq, flushTarget]
    exact ⟨t, rfl, rfl, rfl, rfl, rfl, Or.inr rfl, fun hc => absurd hc hq⟩

/-- Single-target run invariant: over any interleaving of dispatch
iterations and flush-timer ticks, a target whose index writes succeed and
whose configuration cannot raise the size comparison produces no error, and
its applied-events-plus-batch content grows by exactly the dispatched events
of its table, in arrival order — independently of when and how often flushes
happen. -/
theorem runSched_single_content (failSet : List Nat) :
    ∀ (acts : List Action) (t : TargetEntry) (st : RState),
      st.targets = [t] →
      t.pk ∉ failSet →
      (t.conf.insert_size.isSome = true ∨ truthy t.conf.insert_interval = false) →
      (truthy t.conf.insert_size = false → truthy t.conf.insert_interval = false →
        t.batch = []) →
      (runSched failSet st acts).2 = none ∧
      ∃ t1, (runSched failSet st acts).1.targets = [t1] ∧
        t1.table = t.table ∧ t1.conf = t.conf ∧ t1.pk = t.pk ∧
        (truthy t1.conf.insert_size = false →
          truthy t1.conf.insert_interval = false → t1.batch = []) ∧
        t1.applied ++ t1.batch =
          t.applied ++ t.batch ++ eventsFor t.table acts := by
  intro acts
  induction acts with
  | nil =>
    intro t st hT hpk hconf hub
    refine ⟨rfl, t, by rw [runSched, hT], rfl, rfl, rfl, hub, ?_⟩
    rw [eventsFor]
    simp
  | cons a rest ih =>
    intro t st hT hpk hconf hub
    cases a with
    | item q =>
      cases q with
      | progressOnly p =>
        have ht : (syncStep failSet st (.progressOnly p)).1.targets =
            st.targets := rfl
        have he : (syncStep failSet st (.progressOnly p)).2 = none := rfl
        rcases hs : syncStep failSet st (.progressOnly p) with ⟨st1, er⟩
        rw [hs] at ht he
        dsimp only at ht he
        subst he
        rw [runSched, hs]
        exact ih t st1 (ht.trans hT) hpk hconf hub
      | ev e =>
        obtain ⟨her, htb, hcf, hpk2, hub2, hcontent⟩ :=
          dispatchOne_content failSet e.progress e t hpk hconf hub
        have herr : (dispatchList failSet e.progress e [t]).2.2.2.2 = none := by
          rw [dispatchList_single_err]; exact her
        rcases hs : syncStep failSet st (.ev e) with ⟨st1, er⟩
        have herx : er = none := by
          have : (syncStep failSet st (.ev e)).2 =
              (dispatchList failSet e.progress e st.targets).2.2.2.2 := rfl
          rw [hs] at this
          rw [hT] at this
          rw [herr] at this
          exact this
        subst herx
        have hT1 : st1.targets = [(dispatchOne failSet e.progress e t).1] := by
          have : (syncStep failSet st (.ev e)).1.targets =
              (dispatchList failSet e.progress e st.targets).1 := rfl
          rw [hs] at this
          rw [hT, dispatchList_single_fst] at this
          exact this
        rw [runSched, hs]
        have ihr := ih (dispatchOne failSet e.progress e t).1 st1 hT1
          (by rw [hpk2]; exact hpk)
          (by rw [hcf]; exact hconf)
          (by rw [hcf]; exact hub2)
        obtain ⟨hernone, t2, ht2, h2tb, h2cf, h2pk, h2ub, h2content⟩ := ihr
        refine ⟨hernone, t2, ht2, by rw [h2tb, htb], by rw [h2cf, hcf],
          by rw [h2pk, hpk2], ?_, ?_⟩
        · exact h2ub
        · rw [h2content, htb, hcontent]
          rw [show eventsFor t.table (Action.item (QueueItem.ev e) :: rest) =
            (if e.table = t.table then [e] else []) ++ eventsFor t.table rest from rfl]
          have hsw : (if t.table = e.table then [e] else []) =
              (if e.table = t.table then [e] else []) := by
            by_cases h : t.table = e.table
            · rw [if_pos h, if_pos h.symm]
            · rw [if_neg h, if_neg (fun hh => h hh.symm)]
          rw [hsw]
          simp [List.append_assoc]
    | tick pk =>
      obtain ⟨t1, hT1, h1tb, h1cf, h1pk, h1content, h1batch, _⟩ :=
        timerTick_single failSet st pk t hT hpk
      rw [runSched]
      have ihr := ih t1 _ hT1 (by rw [h1pk]; exact hpk)
        (by rw [h1cf]; exact hconf)
        (by
          rw [h1cf]
          intro hx hy
          rcases h1batch with hb | hb
          · exact hb
          · rw [hb]; exact hub hx hy)
      obtain ⟨hernone, t2, ht2, h2tb, h2cf, h2pk, h2ub, h2content⟩ := ihr
      refine ⟨hernone, t2, ht2, by rw [h2tb, h1tb], by rw [h2cf, h1cf],
        by rw [h2pk, h1pk], ?_, ?_⟩
      · exact h2ub
      · rw [h2content, h1tb, h1content]
        rw [show eventsFor t.table (Action.tick pk :: rest) =
          eventsFor t.table rest from rfl]

/-- Running a schedule that raised no exception and then more of the
schedule is the same as running the concatenation. -/
theorem runSched_append (failSet : List Nat) :
    ∀ (acts1 : List Action) (acts2 : List Action) (st : RState),
      (runSched failSet st acts1).2 = none →
      runSched failSet st (acts1 ++ acts2) =
        runSched failSet (runSched failSet st acts1).1 acts2 := by
  intro acts1
  induction acts1 with
  | nil => intro acts2 st _; rfl
  | cons a rest ih =>
    intro acts2 st h
    cases a with
    | item q =>
      rcases hs : syncStep failSet st q with ⟨st1, er⟩
      cases er with
      | none =>
        have hrun1 : runSched failSet st (.item q :: rest) =
            runSched failSet st1 rest := by
          rw [runSched, hs]
        have hrun2 : runSched failSet st ((.item q :: rest) ++ acts2) =
            runSched failSet st1 (rest ++ acts2) := by
          rw [List.cons_append, runSched, hs]
        rw [hrun1] at h
        rw [hrun2, hrun1, ih acts2 st1 h]
      | some er =>
        have hrun1 : runSched failSet st (.item q :: rest) = (st1, some er) := by
          rw [runSched, hs]
        rw [hrun1] at h
        exact absurd h (by simp)
    | tick pk =>
      have hrun1 : runSched failSet st (.tick pk :: rest) =
          runSched failSet (timerTick failSet st pk) rest := by
        rw [runSched]
      have hrun2 : runSched failSet st ((.tick pk :: rest) ++ acts2) =
          runSched failSet (timerTick failSet st pk) (rest ++ acts2) := by
        rw [List.cons_append, runSched]
      rw [hrun1] at h
      rw [hrun2, hrun1, ih acts2 _ h]

/-- The dispatched events of a table in a schedule are those of its queue
items: ticks contribute nothing. -/
theorem eventsFor_itemsOf (tbl : String) :
    ∀ acts : List Action, eventsFor tbl acts = eventsOfItems tbl (itemsOf acts) := by
  intro acts
  induction acts with
  | nil => rfl
  | cons a rest ih =>
    cases a with
    | item q =>
      cases q with
      | ev e =>
        rw [show eventsFor tbl (Action.item (QueueItem.ev e) :: rest) =
          (if e.table = tbl then [e] else []) ++ eventsFor tbl rest from rfl]
        rw [show itemsOf (Action.item (QueueItem.ev e) :: rest) =
          QueueItem.ev e :: itemsOf rest from rfl]
        rw [show eventsOfItems tbl (QueueItem.ev e :: itemsOf rest) =
          (if e.table = tbl then [e] else []) ++ eventsOfItems tbl (itemsOf rest)
          from rfl]
        rw [ih]
      | progressOnly p =>
        rw [show eventsFor tbl (Action.item (QueueItem.progressOnly p) :: rest) =
          eventsFor tbl rest from rfl]
        rw [show itemsOf (Action.item (QueueItem.progressOnly p) :: rest) =
          QueueItem.progressOnly p :: itemsOf rest from rfl]
        rw [show eventsOfItems tbl (QueueItem.progressOnly p :: itemsOf rest) =
          eventsOfItems tbl (itemsOf rest) from rfl]
        exact ih
    | tick pk =>
      rw [show eventsFor tbl (Action.tick pk :: rest) = eventsFor tbl rest from rfl]
      rw [show itemsOf (Action.tick pk :: rest) = itemsOf rest from rfl]
      exact ih

/-- The dispatched events of a table among plain data events are the events
of that table, in order. -/
theorem eventsOfItems_map_ev (tbl : String) :
    ∀ es : List Event, eventsOfItems tbl (es.map QueueItem.ev) =
      es.filter (fun e => e.table = tbl) := by
  intro es
  induction es with
  | nil => rfl
  | cons e es ih =>
    rw [List.map_cons, eventsOfItems, ih]
    by_cases h : e.table = tbl
    · rw [if_pos h, List.filter_cons_of_pos (by simp [h])]
      rfl
    · rw [if_neg h, List.filter_cons_of_neg (by simp [h])]
      rfl

/-- Wrapping every event as a dispatch action and taking the queue items
back gives the events. -/
theorem itemsOf_map_item (es : List Event) :
    itemsOf (es.map fun e => Action.item (QueueItem.ev e)) =
      es.map QueueItem.ev := by
  induction es with
  | nil => rfl
  | cons e es ih =>
    rw [List.map_cons, List.map_cons,
      show itemsOf (Action.item (QueueItem.ev e) ::
          es.map fun e => Action.item (QueueItem.ev e)) =
        QueueItem.ev e ::
          itemsOf (es.map fun e => Action.item (QueueItem.ev e)) from rfl,
      ih]

/-- The batch of the first target, read through a targets equation. -/
theorem headBatch_eq (st : RState) (t : TargetEntry) (h : st.targets = [t]) :
    headBatch st = t.batch := by
  rw [headBatch, h]

/-- The applied list of the first target, read through a targets equation. -/
theorem headApplied_eq (st : RState) (t : TargetEntry) (h : st.targets = [t]) :
    headApplied st = t.applied := by
  rw [headApplied, h]

/-- Claim C3: batching is a throughput optimization, not a semantics change.
For every event sequence and every interleaving of the dispatch loop with
flush-timer ticks of the batched target (so flushes happen by size threshold
and by timer, at arbitrary times), a batched target (insert_size k,
insert_interval i) whose schedule ends with a final timer flush reaches
exactly the same index state, events in the same relative order, as an
unbatched target dispatching the same events one at a time — namely the
events of the target table in arrival order. -/
theorem C3_batched_refines_unbatched (es : List Event) (acts : List Action)
    (k i : Nat) (h : itemsOf acts = es.map QueueItem.ev) :
    (runSched [] (initState 0 [⟨1, "users", ⟨some k, some i⟩, [], [], {}⟩])
      (acts ++ [.tick 1])).2 = none ∧
    (runSched [] (initState 0 [⟨2, "users", ⟨none, none⟩, [], [], {}⟩])
      (es.map fun e => Action.item (QueueItem.ev e))).2 = none ∧
    headBatch (runSched []
      (initState 0 [⟨1, "users", ⟨some k, some i⟩, [], [], {}⟩])
      (acts ++ [.tick 1])).1 = [] ∧
    headApplied (runSched []
      (initState 0 [⟨1, "users", ⟨some k, some i⟩, [], [], {}⟩])
      (acts ++ [.tick 1])).1 =
      headApplied (runSched []
        (initState 0 [⟨2, "users", ⟨none, none⟩, [], [], {}⟩])
        (es.map fun e => Action.item (QueueItem.ev e))).1 ∧
    headApplied (runSched []
      (initState 0 [⟨2, "users", ⟨none, none⟩, [], [], {}⟩])
      (es.map fun e => Action.item (QueueItem.ev e))).1 =
      es.filter (fun e => e.table = "users") := by
  obtain ⟨hBerr, t1, hBt, hBtb, hBcf, hBpk, hBub, hBcontent⟩ :=
    runSched_single_content [] acts ⟨1, "users", ⟨some k, some i⟩, [], [], {}⟩
      (initState 0 [⟨1, "users", ⟨some k, some i⟩, [], [], {}⟩]) rfl
      (by simp) (Or.inl rfl) (fun _ _ => rfl)
  obtain ⟨hUerr, t2, hUt, hUtb, hUcf, hUpk, hUub, hUcontent⟩ :=
    runSched_single_content [] (es.map fun e => Action.item (QueueItem.ev e))
      ⟨2, "users", ⟨none, none⟩, [], [], {}⟩
      (initState 0 [⟨2, "users", ⟨none, none⟩, [], [], {}⟩]) rfl
      (by simp) (Or.inr rfl) (fun _ _ => rfl)
  have happ := runSched_append [] acts [.tick 1] _ hBerr
  obtain ⟨t3, hTt, hTtb, hTcf, hTpk, hTcontent, hTbatch, hTflush⟩ :=
    timerTick_single []
      (runSched [] (initState 0 [⟨1, "users", ⟨some k, some i⟩, [], [], {}⟩])
        acts).1 1 t1 hBt (by simp)
  have hfin : runSched []
      (initState 0 [⟨1, "users", ⟨some k, some i⟩, [], [], {}⟩])
      (acts ++ [Action.tick 1]) =
      (timerTick []
        (runSched [] (initState 0 [⟨1, "users", ⟨some k, some i⟩, [], [], {}⟩])
          acts).1 1, none) := by
    rw [happ]
    rfl
  have ht3b : t3.batch = [] := hTflush hBpk
  have ht2b : t2.batch = [] := hUub (by rw [hUcf]; rfl) (by rw [hUcf]; rfl)
  have hevents : eventsFor "users" acts = es.filter (fun e => e.table = "users") := by
    rw [eventsFor_itemsOf, h, eventsOfItems_map_ev]
  have heventsU : eventsFor "users" (es.map fun e => Action.item (QueueItem.ev e)) =
      es.filter (fun e => e.table = "users") := by
    rw [eventsFor_itemsOf, itemsOf_map_item, eventsOfItems_map_ev]
  have hUapp : headApplied (runSched []
      (initState 0 [⟨2, "users", ⟨none, none⟩, [], [], {}⟩])
      (es.map fun e => Action.item (QueueItem.ev e))).1 =
      es.filter (fun e => e.table = "users") := by
    rw [headApplied_eq _ t2 hUt]
    have := hUcontent
    rw [ht2b] at this
    simp only [List.append_nil] at this
    rw [this]
    simpa using heventsU
  refine ⟨by rw [hfin], hUerr, ?_, ?_, hUapp⟩
  · rw [hfin]
    exact (headBatch_eq _ t3 hTt).trans ht3b
  · rw [hfin]
    rw [headApplied_eq _ t3 hTt, hUapp]
    have h3 : t3.applied = t1.applied ++ t1.batch := by
      have := hTcontent
      rw [ht3b] at this
      simpa using this
    rw [h3]
    have := hBcontent
    simp only [List.nil_append] at this
    rw [this]
    simpa using hevents

/-- Witness for C3: three users events with a timer tick after the first
(forcing an early flush of a partial batch) and insert_size 2 (forcing a
size-triggered flush mid-run), against the same three events unbatched. -/
theorem C3_batched_refines_unbatched_witness :
    itemsOf [Action.item (QueueItem.ev ⟨"users", .create, 1⟩), Action.tick 1,
        Action.item (QueueItem.ev ⟨"users", .create, 2⟩),
        Action.item (QueueItem.ev ⟨"users", .create, 3⟩)] =
      ([⟨"users", .create, 1⟩, ⟨"users", .create, 2⟩,
        ⟨"users", .create, 3⟩] : List Event).map QueueItem.ev ∧
    ((runSched [] (initState 0 [⟨1, "users", ⟨some 2, some 60⟩, [], [], {}⟩])
      ([Action.item (QueueItem.ev ⟨"users", .create, 1⟩), Action.tick 1,
        Action.item (QueueItem.ev ⟨"users", .create, 2⟩),
        Action.item (QueueItem.ev ⟨"users", .create, 3⟩)] ++ [.tick 1])).2 = none ∧
    (runSched [] (initState 0 [⟨2, "users", ⟨none, none⟩, [], [], {}⟩])
      (([⟨"users", .create, 1⟩, ⟨"users", .create, 2⟩,
        ⟨"users", .create, 3⟩] : List Event).map
          fun e => Action.item (QueueItem.ev e))).2 = none ∧
    headBatch (runSched []
      (initState 0 [⟨1, "users", ⟨some 2, some 60⟩, [], [], {}⟩])
      ([Action.item (QueueItem.ev ⟨"users", .create, 1⟩), Action.tick 1,
        Action.item (QueueItem.ev ⟨"users", .create, 2⟩),
        Action.item (QueueItem.ev ⟨"users", .create, 3⟩)] ++ [.tick 1])).1 = [] ∧
    headApplied (runSched []
      (initState 0 [⟨1, "users", ⟨some 2, some 60⟩, [], [], {}⟩])
      ([Action.item (QueueItem.ev ⟨"users", .create, 1⟩), Action.tick 1,
        Action.item (QueueItem.ev ⟨"users", .create, 2⟩),
        Action.item (QueueItem.ev ⟨"users", .create, 3⟩)] ++ [.tick 1])).1 =
      headApplied (runSched []
        (initState 0 [⟨2, "users", ⟨none, none⟩, [], [], {}⟩])
        (([⟨"users", .create, 1⟩, ⟨"users", .create, 2⟩,
          ⟨"users", .create, 3⟩] : List Event).map
            fun e => Action.item (QueueItem.ev e))).1 ∧
    headApplied (runSched []
      (initState 0 [⟨2, "users", ⟨none, none⟩, [], [], {}⟩])
      (([⟨"users", .create, 1⟩, ⟨"users", .create, 2⟩,
        ⟨"users", .create, 3⟩] : List Event).map
          fun e => Action.item (QueueItem.ev e))).1 =
      ([⟨"users", .create, 1⟩, ⟨"users", .create, 2⟩,
        ⟨"users", .create, 3⟩] : List Event).filter
        (fun e => e.table = "users")) :=
  ⟨rfl,
   C3_batched_refines_unbatched
     [⟨"users", .create, 1⟩, ⟨"users", .create, 2⟩, ⟨"users", .create, 3⟩]
     [Action.item (QueueItem.ev ⟨"users", .create, 1⟩), Action.tick 1,
      Action.item (QueueItem.ev ⟨"users", .create, 2⟩),
      Action.item (QueueItem.ev ⟨"users", .create, 3⟩)] 2 60 rfl⟩

end MeilisyncAdmin
